import Mathlib

/-!
Verification of the `miab_dns_cli.py` Mail-in-a-Box DNS command-line tool.

The Python source is shallowly embedded: a DNS record (a JSON object with
keys `qname`, `rtype`, `value` and optionally `source`) becomes a `Record`
structure; functions that only transform data become pure Lean functions;
the command flows that issue HTTP calls are embedded as functions that
return their result together with the ordered list of remote calls issued
(the trace); HTTP failure (`raise_for_status` on a non-2xx status) becomes
an `Except` error that short-circuits the rest of a command's trace.
-/

/-- A DNS record as handled by the tool: the dict keys `qname`, `rtype`,
`value`, and the optional `source` tag added by
`extend_records_with_source_tag`. -/
structure Record where
  qname : String
  rtype : String
  value : String
  source : Option String
deriving Repr, DecidableEq

/-- Setting `r["source"] = s` on a record dict. -/
def tagSource (s : String) (r : Record) : Record :=
  { r with source := some s }

/-- `find_existing_record(records, qname)` (line 41): the records whose
`qname` equals the given name. -/
def find_existing_record (records : List Record) (qname : String) : List Record :=
  records.filter (fun r => r.qname == qname)

/-- Python's `s.endswith(t)`: `t` is a suffix of `s`, compared character by
character. -/
def pyEndsWith (s t : String) : Bool :=
  t.data.isSuffixOf s.data

/-- `filter_records_by_domain(records, domain)` (line 44): keeps the records
whose `qname` string ends with `domain` (Python `str.endswith`, a bare
suffix test: no case folding, no dot-boundary check). -/
def filter_records_by_domain (records : List Record) (domain : String) : List Record :=
  records.filter (fun r => pyEndsWith r.qname domain)

/-- Strips trailing `'.'` characters from a name (used only by the
spec-side matcher below). -/
def stripTrailingDots (s : String) : String :=
  ⟨(s.data.reverse.dropWhile (fun c => c == '.')).reverse⟩

/-- Lower-cases every character of a string (used only by the spec-side
matcher below). -/
def lowerStr (s : String) : String :=
  ⟨s.data.map Char.toLower⟩

/-- Modelled from the spec, for comparison with `filter_records_by_domain`:
a record name `n` matches filter domain `d` iff `n = d` or `n` ends with
`"." ++ d`, compared case-insensitively and with trailing dots stripped. -/
def spec_domain_match (n d : String) : Bool :=
  let n' := lowerStr (stripTrailingDots n)
  let d' := lowerStr (stripTrailingDots d)
  n' == d' || pyEndsWith n' ("." ++ d')

/-- `extend_records_with_source_tag(custom_records, external_records)`
(lines 47-54): stamps every custom record with `source = "custom"`; then,
if `external_records` is truthy (a non-`None`, non-empty list), stamps
every external record with `source = "external"` and returns
custom ++ external; otherwise returns the (tagged) custom list. -/
def extend_records_with_source_tag (custom : List Record)
    (external : Option (List Record)) : List Record :=
  let tagged := custom.map (tagSource "custom")
  match external with
  | some ext =>
      if ext.isEmpty then tagged
      else tagged ++ ext.map (tagSource "external")
  | none => tagged

/-- `MailInABoxDNSBasicAuth.get_record(qname, rtype)` (lines 68-69) applied
to an already fetched record list: the records matching both the name and
the type. -/
def get_record (records : List Record) (qname rtype : String) : List Record :=
  records.filter (fun r => r.qname == qname && r.rtype == rtype)

/-- A concrete record used in tests below. -/
def sampleRecord : Record :=
  { qname := "notexample.com", rtype := "A", value := "1.2.3.4", source := none }

/-- A remote HTTP call issued by the tool, identified by endpoint and
method: `GET /dns/custom` (`listRecords`), `DELETE /dns/custom/{q}/{t}`
(`delete`), `POST /dns/custom/{q}/{t}` (`add`), and
`GET /dns/zonefile-external/{zone}` (`externalZonefile`). -/
inductive Call where
  | listRecords
  | externalZonefile (zone : String)
  | delete (qname rtype : String)
  | add (qname rtype value : String)
deriving Repr, DecidableEq

/-- Outcome of the add-record command flow: completed with the success
message printed by `print_pretty`, or cancelled with the message of
line 225. -/
inductive AddOutcome where
  | completed (message : String)
  | cancelled (message : String)
deriving Repr, DecidableEq

/-- The add-record branch of `cli_main` (lines 213-228), given the record
list fetched by the initial `list_records` call. `update` is the
update flag (`-u`) and `answer` the yes/no reply to the interactive
prompt (the prompt is only consulted when `update` is false, as
`args.update or prompt_yes_no(...)` short-circuits). Returns the outcome
and the ordered trace of remote calls issued. -/
def add_record_flow (records : List Record) (qname rtype value : String)
    (update answer : Bool) : AddOutcome × List Call :=
  let existing := find_existing_record records qname
  if existing.any (fun r => r.rtype == rtype) then
    if update || answer then
      (AddOutcome.completed "Record added or updated.",
        Call.listRecords ::
          ((existing.filter (fun r => r.rtype == rtype)).map
            (fun r => Call.delete r.qname r.rtype) ++ [Call.add qname rtype value]))
    else
      (AddOutcome.cancelled "Record was not added or updated.", [Call.listRecords])
  else
    (AddOutcome.completed "Record added or updated.",
      [Call.listRecords, Call.add qname rtype value])

/-- An HTTP response: the status code and, for the GET endpoints that
return JSON record lists, the parsed records. -/
structure HttpResponse where
  status : Nat
  records : List Record
deriving Repr, DecidableEq

/-- The error raised by `response.raise_for_status()` on a non-2xx
status (a `requests.exceptions.HTTPError`, a `RequestException`). -/
structure RemoteError where
  statusCode : Nat
deriving Repr, DecidableEq

/-- The remote server, as seen by the tool: what each call would answer. -/
def Oracle : Type := Call → HttpResponse

/-- Whether `raise_for_status` passes: status in the 2xx range. -/
def is2xx (resp : HttpResponse) : Bool :=
  decide (200 ≤ resp.status) && decide (resp.status < 300)

/-- Issues one remote call, appending it to the trace; a non-2xx response
becomes a `RemoteError` (the `raise_for_status` of lines 75, 87, 107). -/
def issue (o : Oracle) (c : Call) (tr : List Call) :
    Except RemoteError (List Record) × List Call :=
  if is2xx (o c) then (Except.ok (o c).records, tr ++ [c])
  else (Except.error ⟨(o c).status⟩, tr ++ [c])

/-- Issues a list of calls in order, stopping at the first non-2xx
response (each Python call raises before the next statement runs). -/
def runCalls (o : Oracle) : List Call → List Call →
    Except RemoteError Unit × List Call
  | [], tr => (Except.ok (), tr)
  | c :: cs, tr =>
      if is2xx (o c) then runCalls o cs (tr ++ [c])
      else (Except.error ⟨(o c).status⟩, tr ++ [c])

/-- The process exit code produced by `cli_main`'s handlers (lines
264-269): 0 on success, 1 when a `RequestException` (or any exception)
reaches the top level. -/
def cli_exit_code {α : Type} : Except RemoteError α → Nat
  | Except.ok _ => 0
  | Except.error _ => 1

/-- The `list-records` command without `--external` (line 208): one
`GET /dns/custom`. -/
def run_list_records (o : Oracle) : Except RemoteError (List Record) × List Call :=
  issue o Call.listRecords []

/-- The `remove-record` command (line 234): one DELETE. -/
def run_remove_record (o : Oracle) (qname rtype : String) :
    Except RemoteError String × List Call :=
  match issue o (Call.delete qname rtype) [] with
  | (Except.ok _, tr) => (Except.ok "Record deleted.", tr)
  | (Except.error e, tr) => (Except.error e, tr)

/-- `MailInABoxDNSBasicAuth.update_record` (lines 78-82):
`get_record` (a `GET /dns/custom`), then one DELETE per matching record,
then one POST add. -/
def run_update_record (o : Oracle) (qname rtype value : String) :
    Except RemoteError String × List Call :=
  match issue o Call.listRecords [] with
  | (Except.error e, tr) => (Except.error e, tr)
  | (Except.ok recs, tr) =>
      match runCalls o ((get_record recs qname rtype).map
          (fun r => Call.delete r.qname r.rtype)) tr with
      | (Except.error e, tr') => (Except.error e, tr')
      | (Except.ok _, tr') =>
          match issue o (Call.add qname rtype value) tr' with
          | (Except.error e, tr'') => (Except.error e, tr'')
          | (Except.ok _, tr'') => (Except.ok "Record added or updated.", tr'')

/-- The `get-record` command without `--external` (line 211):
`GET /dns/custom`, then a local filter by name and type. -/
def run_get_record (o : Oracle) (qname rtype : String) :
    Except RemoteError (List Record) × List Call :=
  match issue o Call.listRecords [] with
  | (Except.error e, tr) => (Except.error e, tr)
  | (Except.ok recs, tr) => (Except.ok (get_record recs qname rtype), tr)

/-- A command run halts on its first remote failure: every issued call
except possibly the last got a 2xx response, and when the run ends in an
error, the exit code is 1 and the last issued call is the one that failed,
its status carried unmodified in the error. -/
def halts_on_first_error {α : Type} (o : Oracle)
    (res : Except RemoteError α × List Call) : Prop :=
  res.2.dropLast.all (fun c => is2xx (o c)) = true
    ∧ ∀ e, res.1 = Except.error e →
        cli_exit_code res.1 = 1
          ∧ ∃ c, res.2.getLast? = some c ∧ is2xx (o c) = false
              ∧ e.statusCode = (o c).status

/-- `get_combined_records(dns, domain_filter, qname, rtype)` (lines
115-126), with the two remote fetches supplied as data: `custom` is the
result of the successful `list_records()` call, and `externalFetch` the
outcome of the `get_external_zonefile` attempt, whose failure is caught by
the bare `except` of line 119 and replaced by the empty list. -/
def get_combined_records (custom : List Record)
    (externalFetch : Except RemoteError (List Record))
    (domainFilter : Option String) (qname rtype : Option String) : List Record :=
  let external := match externalFetch with
    | Except.ok ext => ext
    | Except.error _ => []
  let allRecords := extend_records_with_source_tag custom (some external)
  match domainFilter with
  | some d => filter_records_by_domain allRecords d
  | none =>
      match qname, rtype with
      | some q, some t => allRecords.filter (fun r => r.qname == q && r.rtype == t)
      | _, _ => allRecords

/-- The `get-zonefile --external` overlay (lines 240-247): `external`
starts as `[]`, the `get_external_zonefile` attempt may replace it, and a
failure is caught (a warning is printed) leaving `[]`; then the custom
zonefile records are tagged and combined. -/
def get_zonefile_overlay (custom : List Record)
    (externalFetch : Except RemoteError (List Record)) : List Record :=
  let external := match externalFetch with
    | Except.ok ext => ext
    | Except.error _ => []
  extend_records_with_source_tag custom (some external)

/-- The three environment values read by `load_credentials` (lines 18-20):
`None` models an unset variable. -/
structure Env where
  MIAB_EMAIL : Option String
  MIAB_PASSWORD : Option String
  MIAB_HOST : Option String
deriving Repr, DecidableEq

/-- Python truthiness of an `os.getenv` result: `None` and the empty
string are falsy. -/
def truthy : Option String → Bool
  | none => false
  | some s => !(s == "")

/-- `load_credentials()` (lines 16-23): reads the three variables, raises
`ValueError` unless all three are truthy (`if not all([...])`), and
returns `(host, email, password)`. -/
def load_credentials (env : Env) : Except String (String × String × String) :=
  if truthy env.MIAB_EMAIL && truthy env.MIAB_PASSWORD && truthy env.MIAB_HOST then
    Except.ok (env.MIAB_HOST.getD "", env.MIAB_EMAIL.getD "", env.MIAB_PASSWORD.getD "")
  else
    Except.error "MIAB_HOST, MIAB_EMAIL, and MIAB_PASSWORD must be set in .env"

/-- The `.env` file as a sequence of key-value entries, in file order. -/
def EnvFile : Type := List (String × String)

/-- `dotenv.set_key` as used by `create_env_file` (lines 28-30): replaces
the value of the first entry with the given key, or appends a new entry
when the key is absent, preserving all other entries. -/
def set_key : EnvFile → String → String → EnvFile
  | [], k, v => [(k, v)]
  | (k', v') :: rest, k, v =>
      if k' == k then (k, v) :: rest else (k', v') :: set_key rest k v

/-- `create_env_file(host, email, password)` (lines 25-31): upserts the
three entries into the (possibly just created, possibly pre-existing)
`.env` file. -/
def create_env_file (f : EnvFile) (host email password : String) : EnvFile :=
  set_key (set_key (set_key f "MIAB_HOST" host) "MIAB_EMAIL" email) "MIAB_PASSWORD" password

/-- `os.getenv` after `load_dotenv(dotenv_path=ENV_PATH)` into a clean
process environment: the value of the first entry with the given key. -/
def getenv (f : EnvFile) (k : String) : Option String :=
  (f.find? (fun kv => kv.1 == k)).map (fun kv => kv.2)

/-- `load_credentials()` run against a `.env` file loaded into a clean
environment. -/
def load_credentials_from_file (f : EnvFile) : Except String (String × String × String) :=
  load_credentials ⟨getenv f "MIAB_EMAIL", getenv f "MIAB_PASSWORD", getenv f "MIAB_HOST"⟩

/-- A heap of record dicts: cell `i` holds the dict that references with
value `i` point to. Used to state the in-place-mutation behaviour of
`extend_records_with_source_tag`. -/
abbrev Heap : Type := List Record

/-- A Python reference to a record dict: an index into the heap. -/
def Ref : Type := Nat

/-- The tagging loops of lines 48-49 and 51-52: `r["source"] = s` written
through each reference in turn, mutating the referenced dicts. -/
def tagRefs (s : String) : Heap → List Nat → Heap
  | h, [] => h
  | h, i :: rest =>
      tagRefs s (match h[i]? with
        | some r => h.set i (tagSource s r)
        | none => h) rest

/-- `extend_records_with_source_tag` at the reference level (lines 47-54):
the caller's lists hold references into the heap; the function writes the
`source` key through those references and returns the very `custom` list
object (extended by `external` when that is truthy). -/
def extend_records_in_place (h : Heap) (custom : List Nat)
    (external : Option (List Nat)) : Heap × List Nat :=
  let h' := tagRefs "custom" h custom
  match external with
  | some ext =>
      if ext.isEmpty then (h', custom)
      else (tagRefs "external" h' ext, custom ++ ext)
  | none => (h', custom)

/-- A rendered table: what `tabulate(table, headers=...)` is given in the
`list-records` / `get-record` / `get-zonefile` branch of `print_pretty`
(lines 128-136). -/
structure Table where
  headers : List String
  rows : List (List String)
deriving Repr, DecidableEq

/-- The `list-records` / `get-record` / `get-zonefile` branch of
`print_pretty` (lines 129-136): the `Source` column appears only when some
record carries a `source` key; a missing `source` renders as an empty
cell (`r.get("source")` is `None`). -/
def print_pretty_records (result : List Record) : Table :=
  let showSource := result.any (fun r => r.source.isSome)
  { headers := ["Name", "Type", "Value"] ++ (if showSource then ["Source"] else []),
    rows := result.map (fun r =>
      [r.qname, r.rtype, r.value] ++ (if showSource then [r.source.getD ""] else [])) }

/-- A server on which every call succeeds with status 200 and an empty
record list; used to instantiate the trace theorems. -/
def okOracle : Oracle := fun _ => { status := 200, records := [] }
/-- C1: the spec's domain-match predicate is violated by the code.
`filter_records_by_domain` keeps `"notexample.com"` under filter domain
`"example.com"` because Python's bare `endswith` ignores the label
boundary, while the spec-side matcher rejects it. -/
theorem filter_records_by_domain_bug :
    filter_records_by_domain [sampleRecord] "example.com" = [sampleRecord]
      ∧ spec_domain_match "notexample.com" "example.com" = false := by
  constructor
  · decide
  · decide

/-- C3: `extend_records_with_source_tag` stamps every custom record with
`source = "custom"` and every supplied external record with
`source = "external"`, returning custom followed by external in original
order; with empty custom the result is the tagged external list in order;
with no external list the result is the tagged custom list, length
unchanged. -/
theorem extend_records_with_source_tag_spec (custom ext : List Record) :
    extend_records_with_source_tag custom (some ext)
        = custom.map (tagSource "custom") ++ ext.map (tagSource "external")
      ∧ extend_records_with_source_tag [] (some ext)
        = ext.map (tagSource "external")
      ∧ extend_records_with_source_tag custom none
        = custom.map (tagSource "custom")
      ∧ (extend_records_with_source_tag custom none).length = custom.length := by
  refine ⟨?_, ?_, rfl, by simp [extend_records_with_source_tag]⟩
  · cases ext with
    | nil => simp [extend_records_with_source_tag]
    | cons h t => simp [extend_records_with_source_tag]
  · cases ext with
    | nil => simp [extend_records_with_source_tag]
    | cons h t => simp [extend_records_with_source_tag]

/-- Every element of `dropLast` is an element of the list, so `all`
carries over. -/
theorem all_dropLast_of_all {p : Call → Bool} {l : List Call} (h : l.all p = true) :
    l.dropLast.all p = true := by
  simp only [List.all_eq_true] at h ⊢
  exact fun c hc => h c ((List.dropLast_sublist l).subset hc)

/-- On an all-2xx plan, `runCalls` issues every call and succeeds. -/
theorem runCalls_ok (o : Oracle) :
    ∀ (cs tr : List Call), (∀ c ∈ cs, is2xx (o c) = true) →
      runCalls o cs tr = (Except.ok (), tr ++ cs)
  | [], tr, _ => by simp [runCalls]
  | c :: cs, tr, h => by
      have hc : is2xx (o c) = true := h c (List.mem_cons_self c cs)
      have ih := runCalls_ok o cs (tr ++ [c]) (fun x hx => h x (List.mem_cons_of_mem c hx))
      simp [runCalls, hc, ih]

/-- The trace invariant of `runCalls`: starting from an all-2xx trace,
every issued call but possibly the last succeeded; a success leaves an
all-2xx trace; an error is the status of the last issued call. -/
theorem runCalls_halts (o : Oracle) :
    ∀ (cs tr : List Call), tr.all (fun c => is2xx (o c)) = true →
      ((runCalls o cs tr).2.dropLast.all (fun c => is2xx (o c)) = true)
        ∧ (∀ u, (runCalls o cs tr).1 = Except.ok u →
            (runCalls o cs tr).2.all (fun c => is2xx (o c)) = true)
        ∧ (∀ e, (runCalls o cs tr).1 = Except.error e →
            ∃ c, (runCalls o cs tr).2.getLast? = some c ∧ is2xx (o c) = false
              ∧ e.statusCode = (o c).status)
  | [], tr, h => by
      refine ⟨all_dropLast_of_all h, fun u _ => h, fun e he => ?_⟩
      simp [runCalls] at he
  | c :: cs, tr, h => by
      by_cases hc : is2xx (o c) = true
      · have htr : (tr ++ [c]).all (fun x => is2xx (o x)) = true := by
          simp [List.all_append, h, hc]
        have ih := runCalls_halts o cs (tr ++ [c]) htr
        simpa [runCalls, hc] using ih
      · rw [Bool.not_eq_true] at hc
        refine ⟨?_, ?_, ?_⟩
        · simp [runCalls, hc, h]
        · intro u hu
          simp [runCalls, hc] at hu
        · intro e he
          simp only [runCalls, hc, Bool.false_eq_true, if_false] at he ⊢
          cases he
          exact ⟨c, List.getLast?_concat tr, hc, rfl⟩

/-- C2: in the add-record flow with an existing record for the requested
(qname, rtype) and no update flag, answering "n" issues no delete and no
add (only the initial listing) and ends cancelled with the message of
line 225; answering "y" or passing the flag, with exactly one matching
record, issues exactly one delete then one add, in that order. -/
theorem add_record_conflict_flow (records : List Record) (r : Record)
    (qname rtype value : String) (u a : Bool)
    (hr : (find_existing_record records qname).filter (fun x => x.rtype == rtype) = [r]) :
    add_record_flow records qname rtype value false false
        = (AddOutcome.cancelled "Record was not added or updated.", [Call.listRecords])
      ∧ ((u || a) = true →
          add_record_flow records qname rtype value u a
            = (AddOutcome.completed "Record added or updated.",
                [Call.listRecords, Call.delete qname rtype, Call.add qname rtype value])) := by
  have hmem : r ∈ (find_existing_record records qname).filter (fun x => x.rtype == rtype) := by
    rw [hr]; exact List.mem_singleton_self r
  rw [List.mem_filter] at hmem
  obtain ⟨hex, hrt⟩ := hmem
  have hq : r.qname = qname := by
    have := (List.mem_filter.mp hex).2
    exact eq_of_beq this
  have ht : r.rtype = rtype := eq_of_beq hrt
  have hany : (find_existing_record records qname).any (fun x => x.rtype == rtype) = true := by
    rw [List.any_eq_true]; exact ⟨r, hex, hrt⟩
  constructor
  · simp [add_record_flow, hany]
  · intro hua
    simp [add_record_flow, hany, hua, hr, hq, ht]

/-- Concrete instance of the add-record conflict flow, at one existing
record ("a.example.com", "A", "1.1.1.1"). -/
theorem add_record_conflict_flow_witness :
    add_record_flow
        [{ qname := "a.example.com", rtype := "A", value := "1.1.1.1", source := none }]
        "a.example.com" "A" "2.2.2.2" false false
      = (AddOutcome.cancelled "Record was not added or updated.", [Call.listRecords])
      ∧ ((true || false) = true →
          add_record_flow
              [{ qname := "a.example.com", rtype := "A", value := "1.1.1.1", source := none }]
              "a.example.com" "A" "2.2.2.2" true false
            = (AddOutcome.completed "Record added or updated.",
                [Call.listRecords, Call.delete "a.example.com" "A",
                  Call.add "a.example.com" "A" "2.2.2.2"])) :=
  add_record_conflict_flow
    [{ qname := "a.example.com", rtype := "A", value := "1.1.1.1", source := none }]
    { qname := "a.example.com", rtype := "A", value := "1.1.1.1", source := none }
    "a.example.com" "A" "2.2.2.2" true false (by decide)

/-- C4: `update_record` fetches the matches for (qname, rtype), deletes
each of them, then issues exactly one add, in that order; with zero
matches the trace is the fetch followed by the single add — no deletes. -/
theorem update_record_trace (o : Oracle) (records : List Record) (q t v : String)
    (hlist : o Call.listRecords = { status := 200, records := records })
    (hok : ∀ c, is2xx (o c) = true) :
    (run_update_record o q t v).2
        = Call.listRecords ::
            ((get_record records q t).map (fun r => Call.delete r.qname r.rtype)
              ++ [Call.add q t v])
      ∧ (get_record records q t = [] →
          (run_update_record o q t v).2 = [Call.listRecords, Call.add q t v]) := by
  have h2 := runCalls_ok o
    ((get_record records q t).map (fun r => Call.delete r.qname r.rtype))
    [Call.listRecords] (fun c _ => hok c)
  have h200 : is2xx { status := 200, records := records } = true := rfl
  constructor
  · simp [run_update_record, issue, hok Call.listRecords, hlist, h200, h2,
      hok (Call.add q t v)]
  · intro hnil
    simp [run_update_record, issue, hok Call.listRecords, hlist, h200, hnil, runCalls,
      hok (Call.add q t v)]

/-- Concrete instance of the update-record trace theorem on a server with
no existing records: no deletes, one add. -/
theorem update_record_trace_witness :
    (run_update_record okOracle "a.example.com" "A" "1.2.3.4").2
        = Call.listRecords ::
            ((get_record [] "a.example.com" "A").map (fun r => Call.delete r.qname r.rtype)
              ++ [Call.add "a.example.com" "A" "1.2.3.4"])
      ∧ (get_record [] "a.example.com" "A" = [] →
          (run_update_record okOracle "a.example.com" "A" "1.2.3.4").2
            = [Call.listRecords, Call.add "a.example.com" "A" "1.2.3.4"]) :=
  update_record_trace okOracle [] "a.example.com" "A" "1.2.3.4" rfl (fun _ => rfl)

/-- C5: when the best-effort external fetch fails, the command does not
abort: the external set degrades to the empty list and the rest of the
pipeline runs on the custom records alone, exactly as if the fetch had
returned nothing; the same holds for the get-zonefile overlay. -/
theorem external_fetch_degrades (custom : List Record) (e : RemoteError)
    (df oq ot : Option String) :
    get_combined_records custom (Except.error e) df oq ot
        = get_combined_records custom (Except.ok []) df oq ot
      ∧ get_combined_records custom (Except.error e) none none none
        = custom.map (tagSource "custom")
      ∧ get_zonefile_overlay custom (Except.error e)
        = extend_records_with_source_tag custom (some []) := by
  refine ⟨rfl, ?_, rfl⟩
  simp [get_combined_records, extend_records_with_source_tag]

/-- C6: outside the best-effort overlay, a non-2xx response is fatal: for
each modelled command run (update-record, the richest call sequence;
remove-record; list-records) and any server behaviour, every issued call
except possibly the last succeeded (so nothing is issued after a failure),
and an erroring run exits with code 1 carrying the failing call's status
unmodified. -/
theorem remote_error_fatal (o : Oracle) (q t v : String) :
    halts_on_first_error o (run_update_record o q t v)
      ∧ halts_on_first_error o (run_remove_record o q t)
      ∧ halts_on_first_error o (run_list_records o) := by
  refine ⟨?_, ?_, ?_⟩
  · by_cases h1 : is2xx (o Call.listRecords) = true
    · have htr : ([Call.listRecords] : List Call).all (fun c => is2xx (o c)) = true := by
        simp [h1]
      obtain ⟨hd, hok2, herr⟩ := runCalls_halts o
        ((get_record (o Call.listRecords).records q t).map
          (fun r => Call.delete r.qname r.rtype)) [Call.listRecords] htr
      rcases hrc : runCalls o
          ((get_record (o Call.listRecords).records q t).map
            (fun r => Call.delete r.qname r.rtype)) [Call.listRecords] with ⟨res2, tr2⟩
      rw [hrc] at hd hok2 herr
      cases res2 with
      | error e2 =>
          have hrun : run_update_record o q t v = (Except.error e2, tr2) := by
            simp [run_update_record, issue, h1, hrc]
          rw [hrun]
          refine ⟨hd, fun e he => ?_⟩
          have he' : e = e2 := by simpa using he.symm
          subst he'
          exact ⟨rfl, herr e rfl⟩
      | ok u =>
          have hall2 : tr2.all (fun c => is2xx (o c)) = true := hok2 u rfl
          by_cases h2 : is2xx (o (Call.add q t v)) = true
          · have hrun : run_update_record o q t v
                = (Except.ok "Record added or updated.", tr2 ++ [Call.add q t v]) := by
              simp [run_update_record, issue, h1, hrc, h2]
            rw [hrun]
            refine ⟨by simp [hall2], fun e he => ?_⟩
            simp at he
          · rw [Bool.not_eq_true] at h2
            have hrun : run_update_record o q t v
                = (Except.error ⟨(o (Call.add q t v)).status⟩, tr2 ++ [Call.add q t v]) := by
              simp [run_update_record, issue, h1, hrc, h2]
            rw [hrun]
            refine ⟨by simp [hall2], fun e he => ?_⟩
            have he' : e = ⟨(o (Call.add q t v)).status⟩ := by simpa using he.symm
            subst he'
            exact ⟨rfl, Call.add q t v, List.getLast?_concat tr2, h2, rfl⟩
    · rw [Bool.not_eq_true] at h1
      have hrun : run_update_record o q t v
          = (Except.error ⟨(o Call.listRecords).status⟩, [Call.listRecords]) := by
        simp [run_update_record, issue, h1]
      rw [hrun]
      refine ⟨by simp, fun e he => ?_⟩
      have he' : e = ⟨(o Call.listRecords).status⟩ := by simpa using he.symm
      subst he'
      exact ⟨rfl, Call.listRecords, rfl, h1, rfl⟩
  · by_cases h : is2xx (o (Call.delete q t)) = true
    · have hrun : run_remove_record o q t = (Except.ok "Record deleted.", [Call.delete q t]) := by
        simp [run_remove_record, issue, h]
      rw [hrun]
      refine ⟨by simp, fun e he => ?_⟩
      simp at he
    · rw [Bool.not_eq_true] at h
      have hrun : run_remove_record o q t
          = (Except.error ⟨(o (Call.delete q t)).status⟩, [Call.delete q t]) := by
        simp [run_remove_record, issue, h]
      rw [hrun]
      refine ⟨by simp, fun e he => ?_⟩
      have he' : e = ⟨(o (Call.delete q t)).status⟩ := by simpa using he.symm
      subst he'
      exact ⟨rfl, Call.delete q t, rfl, h, rfl⟩
  · by_cases h : is2xx (o Call.listRecords) = true
    · have hrun : run_list_records o
          = (Except.ok (o Call.listRecords).records, [Call.listRecords]) := by
        simp [run_list_records, issue, h]
      rw [hrun]
      refine ⟨by simp, fun e he => ?_⟩
      simp at he
    · rw [Bool.not_eq_true] at h
      have hrun : run_list_records o
          = (Except.error ⟨(o Call.listRecords).status⟩, [Call.listRecords]) := by
        simp [run_list_records, issue, h]
      rw [hrun]
      refine ⟨by simp, fun e he => ?_⟩
      have he' : e = ⟨(o Call.listRecords).status⟩ := by simpa using he.symm
      subst he'
      exact ⟨rfl, Call.listRecords, rfl, h, rfl⟩

/-- Concrete instance of the fatal-error theorem on the all-success
server. -/
theorem remote_error_fatal_witness :
    halts_on_first_error okOracle (run_update_record okOracle "a.example.com" "A" "1.1.1.1")
      ∧ halts_on_first_error okOracle (run_remove_record okOracle "a.example.com" "A")
      ∧ halts_on_first_error okOracle (run_list_records okOracle) :=
  remote_error_fatal okOracle "a.example.com" "A" "1.1.1.1"

/-- C10: `get-record` without the external flag, when no custom record
matches (qname, rtype), returns the empty list and succeeds: the trace is
just the listing call, an empty table (headers only) is printed, and the
exit code is 0. -/
theorem get_record_no_match (o : Oracle) (records : List Record) (q t : String)
    (hresp : o Call.listRecords = { status := 200, records := records })
    (hno : records.all (fun r => !(r.qname == q && r.rtype == t)) = true) :
    run_get_record o q t = (Except.ok [], [Call.listRecords])
      ∧ print_pretty_records [] = { headers := ["Name", "Type", "Value"], rows := [] }
      ∧ cli_exit_code (run_get_record o q t).1 = 0 := by
  have h1 : is2xx (o Call.listRecords) = true := by rw [hresp]; rfl
  have hemp : get_record records q t = [] := by
    rw [get_record, List.filter_eq_nil_iff]
    intro a ha
    have h := List.all_eq_true.mp hno a ha
    simp at h ⊢
    tauto
  have h200 : is2xx { status := 200, records := records } = true := rfl
  have hrun : run_get_record o q t = (Except.ok [], [Call.listRecords]) := by
    simp [run_get_record, issue, h1, hresp, h200, hemp]
  exact ⟨hrun, rfl, by rw [hrun]; rfl⟩

/-- Concrete instance of the missing-record theorem: an empty server-side
record set, querying any pair. -/
theorem get_record_no_match_witness :
    run_get_record okOracle "a.example.com" "A" = (Except.ok [], [Call.listRecords])
      ∧ print_pretty_records [] = { headers := ["Name", "Type", "Value"], rows := [] }
      ∧ cli_exit_code (run_get_record okOracle "a.example.com" "A").1 = 0 :=
  get_record_no_match okOracle [] "a.example.com" "A" rfl rfl

/-- A `getenv` result is falsy exactly when the variable is unset or set
to the empty string. -/
theorem truthy_eq_false (x : Option String) :
    truthy x = false ↔ (x = none ∨ x = some "") := by
  cases x with
  | none => simp [truthy]
  | some s => simp [truthy]

/-- C7 counterexample: all three variables are present (one of them set to
the empty string), yet `load_credentials` raises instead of returning the
triple, because `all([...])` treats the empty string as missing. -/
theorem load_credentials_counterexample :
    (Env.mk (some "") (some "p") (some "h")).MIAB_EMAIL.isSome = true
      ∧ (Env.mk (some "") (some "p") (some "h")).MIAB_PASSWORD.isSome = true
      ∧ (Env.mk (some "") (some "p") (some "h")).MIAB_HOST.isSome = true
      ∧ load_credentials (Env.mk (some "") (some "p") (some "h"))
          = Except.error "MIAB_HOST, MIAB_EMAIL, and MIAB_PASSWORD must be set in .env" :=
  ⟨rfl, rfl, rfl, rfl⟩

/-- C7 (amended): loading fails with the `ValueError` exactly when one of
the three values is absent or empty, and returns the (host, email,
password) triple when all three are present and non-empty. -/
theorem load_credentials_spec (env : Env) :
    ((∃ msg, load_credentials env = Except.error msg)
        ↔ (env.MIAB_EMAIL = none ∨ env.MIAB_EMAIL = some ""
            ∨ env.MIAB_PASSWORD = none ∨ env.MIAB_PASSWORD = some ""
            ∨ env.MIAB_HOST = none ∨ env.MIAB_HOST = some ""))
      ∧ (∀ hst em pw, env.MIAB_HOST = some hst → env.MIAB_EMAIL = some em
          → env.MIAB_PASSWORD = some pw → em ≠ "" → pw ≠ "" → hst ≠ ""
          → load_credentials env = Except.ok (hst, em, pw)) := by
  constructor
  · constructor
    · rintro ⟨msg, hmsg⟩
      by_contra hcon
      push_neg at hcon
      obtain ⟨h1, h2, h3, h4, h5, h6⟩ := hcon
      have t1 : truthy env.MIAB_EMAIL = true := by
        cases ht : truthy env.MIAB_EMAIL
        · rcases (truthy_eq_false _).mp ht with h | h
          · exact absurd h h1
          · exact absurd h h2
        · rfl
      have t2 : truthy env.MIAB_PASSWORD = true := by
        cases ht : truthy env.MIAB_PASSWORD
        · rcases (truthy_eq_false _).mp ht with h | h
          · exact absurd h h3
          · exact absurd h h4
        · rfl
      have t3 : truthy env.MIAB_HOST = true := by
        cases ht : truthy env.MIAB_HOST
        · rcases (truthy_eq_false _).mp ht with h | h
          · exact absurd h h5
          · exact absurd h h6
        · rfl
      simp [load_credentials, t1, t2, t3] at hmsg
    · intro hd
      have hf : (truthy env.MIAB_EMAIL && truthy env.MIAB_PASSWORD
          && truthy env.MIAB_HOST) = false := by
        rcases hd with h | h | h | h | h | h <;> simp [truthy, h]
      refine ⟨"MIAB_HOST, MIAB_EMAIL, and MIAB_PASSWORD must be set in .env", ?_⟩
      simp [load_credentials, hf]
  · intro hst em pw hH hE hP hne1 hne2 hne3
    simp [load_credentials, hH, hE, hP, truthy, hne1, hne2, hne3]

/-- Concrete instance of the amended credentials contract: three
non-empty values load back as the triple. -/
theorem load_credentials_spec_witness :
    load_credentials
        (Env.mk (some "admin@example.com") (some "secret") (some "box.example.com"))
      = Except.ok ("box.example.com", "admin@example.com", "secret") :=
  (load_credentials_spec
      (Env.mk (some "admin@example.com") (some "secret") (some "box.example.com"))).2
    "box.example.com" "admin@example.com" "secret" rfl rfl rfl
    (by decide) (by decide) (by decide)

/-- Reading back the key just written by `set_key`. -/
theorem getenv_set_key_self : ∀ (f : EnvFile) (k v : String),
    getenv (set_key f k v) k = some v
  | [], k, v => by simp [set_key, getenv]
  | (a, b) :: rest, k, v => by
      by_cases h : (a == k) = true
      · simp [set_key, h, getenv]
      · rw [Bool.not_eq_true] at h
        have ih := getenv_set_key_self rest k v
        simp only [set_key, h, Bool.false_eq_true, if_false]
        simpa [getenv, List.find?, h] using ih

/-- `set_key` leaves the values of other keys unchanged. -/
theorem getenv_set_key_ne : ∀ (f : EnvFile) (k k' v : String),
    (k' == k) = false → getenv (set_key f k' v) k = getenv f k
  | [], k, k', v, h => by simp [set_key, getenv, List.find?, h]
  | (a, b) :: rest, k, k', v, h => by
      by_cases ha : (a == k') = true
      · have hak : (a == k) = false := by
          have : a = k' := eq_of_beq ha
          rw [this]; exact h
        simp [set_key, ha, getenv, List.find?, h, hak]
      · rw [Bool.not_eq_true] at ha
        have ih := getenv_set_key_ne rest k k' v h
        by_cases hak : (a == k) = true
        · simp [set_key, ha, getenv, List.find?, hak]
        · rw [Bool.not_eq_true] at hak
          simp only [set_key, ha, Bool.false_eq_true, if_false]
          simpa [getenv, List.find?, hak] using ih

/-- C8 counterexample: saving the triple ("box.example.com",
"admin@example.com", "") and loading it back does not return the triple —
the empty password makes `load_credentials` raise. -/
theorem save_load_roundtrip_counterexample :
    load_credentials_from_file
        (create_env_file [] "box.example.com" "admin@example.com" "")
        = Except.error "MIAB_HOST, MIAB_EMAIL, and MIAB_PASSWORD must be set in .env"
      ∧ load_credentials_from_file
          (create_env_file [] "box.example.com" "admin@example.com" "")
        ≠ Except.ok ("box.example.com", "admin@example.com", "") := by
  refine ⟨rfl, fun hc => ?_⟩
  exact Except.noConfusion hc

/-- C8 (amended): for every credentials triple whose three values are
non-empty, saving via setup mode and loading back yields the identical
triple, whatever entries the `.env` file already held. -/
theorem save_load_roundtrip (f : EnvFile) (host email password : String)
    (h1 : host ≠ "") (h2 : email ≠ "") (h3 : password ≠ "") :
    load_credentials_from_file (create_env_file f host email password)
      = Except.ok (host, email, password) := by
  have hP : getenv (create_env_file f host email password) "MIAB_PASSWORD"
      = some password := by
    unfold create_env_file
    exact getenv_set_key_self _ _ _
  have hE : getenv (create_env_file f host email password) "MIAB_EMAIL"
      = some email := by
    unfold create_env_file
    rw [getenv_set_key_ne _ _ _ _ (by decide)]
    exact getenv_set_key_self _ _ _
  have hH : getenv (create_env_file f host email password) "MIAB_HOST"
      = some host := by
    unfold create_env_file
    rw [getenv_set_key_ne _ _ _ _ (by decide), getenv_set_key_ne _ _ _ _ (by decide)]
    exact getenv_set_key_self _ _ _
  rw [load_credentials_from_file, hP, hE, hH]
  simp [load_credentials, truthy, h1, h2, h3]

/-- Concrete instance of the round-trip: a non-empty triple saved into an
empty file loads back unchanged. -/
theorem save_load_roundtrip_witness :
    load_credentials_from_file
        (create_env_file [] "box.example.com" "admin@example.com" "secret")
      = Except.ok ("box.example.com", "admin@example.com", "secret") :=
  save_load_roundtrip [] "box.example.com" "admin@example.com" "secret"
    (by decide) (by decide) (by decide)

/-- Writing the same `source` value twice is the same as writing it
once. -/
theorem tagSource_idem (s : String) (r : Record) :
    tagSource s (tagSource s r) = tagSource s r := rfl

/-- What each heap cell holds after the tagging loop: cells referenced by
the list carry the tag written through their reference; all other cells
are untouched. -/
theorem tagRefs_getElem? (s : String) : ∀ (refs : List Nat) (h : Heap) (i : Nat),
    (tagRefs s h refs)[i]?
      = if i ∈ refs then h[i]?.map (tagSource s) else h[i]?
  | [], h, i => by simp [tagRefs]
  | j :: rest, h, i => by
      cases hj : h[j]? with
      | none =>
          have step : tagRefs s h (j :: rest) = tagRefs s h rest := by
            simp [tagRefs, hj]
          rw [step, tagRefs_getElem? s rest h i]
          by_cases hij : i = j
          · subst hij
            by_cases him : i ∈ rest <;> simp [him, hj]
          · simp [List.mem_cons, hij]
      | some r =>
          have step : tagRefs s h (j :: rest)
              = tagRefs s (h.set j (tagSource s r)) rest := by
            simp [tagRefs, hj]
          rw [step, tagRefs_getElem? s rest (h.set j (tagSource s r)) i]
          by_cases hij : i = j
          · subst hij
            have hlt : i < h.length := by
              by_contra hge
              rw [List.getElem?_eq_none (Nat.le_of_not_lt hge)] at hj
              cases hj
            have hset : (h.set i (tagSource s r))[i]? = some (tagSource s r) := by
              rw [List.getElem?_set_self (by simpa using hlt)]
            by_cases him : i ∈ rest
            · simp [him, hset, hj, tagSource_idem]
            · simp [him, hset, hj]
          · have hset : (h.set j (tagSource s r))[i]? = h[i]? :=
              List.getElem?_set_ne (fun hji => hij hji.symm)
            by_cases him : i ∈ rest
            · simp [him, hset, List.mem_cons, hij]
            · simp [him, hset, List.mem_cons, hij]

/-- C9: `extend_records_with_source_tag` mutates the caller's record
dicts in place: every heap cell referenced by the custom list has its
`source` key set to "custom" (and, when an external list is supplied,
every cell it references is then set to "external"), unreferenced cells
are untouched, and with no external list the function returns the
caller's `custom` list object itself, not a copy. -/
theorem extend_records_in_place_spec (h : Heap) (custom ext : List Nat) :
    (extend_records_in_place h custom none).2 = custom
      ∧ (∀ i, i ∈ custom →
          (extend_records_in_place h custom none).1[i]?
            = h[i]?.map (tagSource "custom"))
      ∧ (∀ i, i ∉ custom →
          (extend_records_in_place h custom none).1[i]? = h[i]?)
      ∧ (∀ i, i ∈ ext →
          (extend_records_in_place h custom (some ext)).1[i]?
            = (tagRefs "custom" h custom)[i]?.map (tagSource "external"))
      ∧ (ext ≠ [] → (extend_records_in_place h custom (some ext)).2 = custom ++ ext) := by
  refine ⟨rfl, ?_, ?_, ?_, ?_⟩
  · intro i hi
    show (tagRefs "custom" h custom)[i]? = h[i]?.map (tagSource "custom")
    rw [tagRefs_getElem?]
    simp [hi]
  · intro i hi
    show (tagRefs "custom" h custom)[i]? = h[i]?
    rw [tagRefs_getElem?]
    simp [hi]
  · intro i hi
    have hne : ext.isEmpty = false := by
      cases ext with
      | nil => cases hi
      | cons a t => rfl
    rw [show (extend_records_in_place h custom (some ext)).1
        = tagRefs "external" (tagRefs "custom" h custom) ext by
      simp [extend_records_in_place, hne]]
    rw [tagRefs_getElem?]
    simp [hi]
  · intro hne
    have hne' : ext.isEmpty = false := by
      cases ext with
      | nil => exact absurd rfl hne
      | cons a t => rfl
    simp [extend_records_in_place, hne']

/-- Concrete instance of the in-place behaviour: one record on the heap,
one reference, no external list — the returned list is the argument list
and the referenced cell is tagged. -/
theorem extend_records_in_place_witness :
    (extend_records_in_place [sampleRecord] [0] none).2 = [0]
      ∧ (extend_records_in_place [sampleRecord] [0] none).1[0]?
          = ([sampleRecord] : Heap)[0]?.map (tagSource "custom") :=
  ⟨(extend_records_in_place_spec [sampleRecord] [0] []).1,
    (extend_records_in_place_spec [sampleRecord] [0] []).2.1 0 (List.mem_singleton_self 0)⟩
